import Mathlib

/-!
A shallow embedding of the `rust_hls` HLS compiler core (IR graph,
pipeline scheduler, Verilog emitter) together with proofs checking the
natural-language specification against it.

The definitions follow the Rust source files `src/ir/graph.rs`,
`src/passes/pipeline.rs` and `src/backend/verilog.rs`:

* `usize` counters are `Nat`; the dependency counters of the ASAP pass
  are `Int` so that release-mode wrap-around of `usize` subtraction is
  modelled faithfully (a wrapped counter is never `0` again).
* Rust `HashMap`s are association lists (`alookup`/`aupdate`) with the
  same lookup/insert semantics.  Where the Rust code *iterates* over a
  `HashMap` (only `generate_pipeline_stages` does), the unspecified
  iteration order is made an explicit parameter of the embedding.
* Panics are modelled by `Option` (`none` = panic).
-/

namespace RustHLS

/-! ## Association-list maps (model of `std::collections::HashMap`) -/

/-- Lookup in an association list (model of `HashMap::get`). -/
def alookup {α β : Type} [DecidableEq α] (m : List (α × β)) (k : α) : Option β :=
  (m.find? (fun p => p.1 = k)).map (fun p => p.2)

/-- Insert-or-replace in an association list (model of `HashMap::insert`).
New keys are appended, existing keys have their value replaced. -/
def aupdate {α β : Type} [DecidableEq α] (m : List (α × β)) (k : α) (v : β) :
    List (α × β) :=
  match m with
  | [] => [(k, v)]
  | p :: rest => if p.1 = k then (k, v) :: rest else p :: aupdate rest k v

/-! ## Data model (`src/ir/graph.rs`) -/

/-- `Operation` from `graph.rs`; `ValueId` operands are plain `Nat`s. -/
inductive Operation : Type where
  | add : Nat → Nat → Operation
  | sub : Nat → Nat → Operation
  | mul : Nat → Nat → Operation
  | div : Nat → Nat → Operation
  | and : Nat → Nat → Operation
  | or : Nat → Nat → Operation
  | not : Nat → Operation
  | cmpLt : Nat → Nat → Operation
  | cmpEq : Nat → Nat → Operation
  | load : String → Operation
  | store : String → Nat → Operation
  | const : Int → Operation
  | mux : Nat → Nat → Nat → Operation
  | pipelineRegister : Nat → Operation
  | pipelineBarrier : Operation
  | nop : Operation
deriving DecidableEq, Repr

/-- `Node` from `graph.rs`. -/
structure Node : Type where
  id : Nat
  op : Operation
  output : Option Nat
deriving DecidableEq, Repr

/-- `PipelineConfig` from `graph.rs`. -/
structure PipelineConfig : Type where
  enable : Bool
  initiation_interval : Nat
  pipeline_depth : Nat
  unroll_factor : Nat
deriving DecidableEq, Repr

/-- `PipelineConfig::default()`. -/
def PipelineConfig.default : PipelineConfig :=
  { enable := false, initiation_interval := 1, pipeline_depth := 1, unroll_factor := 1 }

/-- `PipelineStage` from `graph.rs`. -/
structure PipelineStage : Type where
  stage : Nat
  cycle : Nat
  operations : List Nat
deriving DecidableEq, Repr

/-- `Graph` from `graph.rs`.  `value_map` is the value → producing-node map. -/
structure Graph : Type where
  nodes : List Node
  next_value : Nat
  next_node : Nat
  value_map : List (Nat × Nat)
  pipeline_config : PipelineConfig
  pipeline_stages : List PipelineStage
deriving DecidableEq, Repr

/-- `Graph::new()`. -/
def Graph.new : Graph :=
  { nodes := [], next_value := 0, next_node := 0, value_map := [],
    pipeline_config := PipelineConfig.default, pipeline_stages := [] }

/-- `Graph::new_value`: mint a fresh value id. -/
def Graph.new_value (g : Graph) : Nat × Graph :=
  (g.next_value, { g with next_value := g.next_value + 1 })

/-- `Graph::add_node_with_output`. -/
def Graph.add_node_with_output (g : Graph) (op : Operation) : Nat × Graph :=
  let (output_value, g1) := g.new_value
  let node : Node := { id := g1.next_node, op := op, output := some output_value }
  (output_value,
    { g1 with
        next_node := g1.next_node + 1,
        value_map := aupdate g1.value_map output_value node.id,
        nodes := g1.nodes ++ [node] })

/-- `Graph::add_node` (sink operations, no output value). -/
def Graph.add_node (g : Graph) (op : Operation) : Nat × Graph :=
  let node : Node := { id := g.next_node, op := op, output := none }
  (node.id,
    { g with
        next_node := g.next_node + 1,
        nodes := g.nodes ++ [node] })

/-- `Graph::enable_pipeline`. -/
def Graph.enable_pipeline (g : Graph) (ii depth unroll : Nat) : Graph :=
  { g with pipeline_config :=
      { enable := true, initiation_interval := ii,
        pipeline_depth := depth, unroll_factor := unroll } }

/-- `Graph::insert_pipeline_register`. -/
def Graph.insert_pipeline_register (g : Graph) (value : Nat) : Nat × Graph :=
  let (reg_value, g1) := g.new_value
  let reg_node : Node :=
    { id := g1.next_node, op := Operation.pipelineRegister value, output := some reg_value }
  (reg_value,
    { g1 with
        next_node := g1.next_node + 1,
        value_map := aupdate g1.value_map reg_value reg_node.id,
        nodes := g1.nodes ++ [reg_node] })

/-- `Graph::get_operation_latency` (the `&self` receiver is unused in the source). -/
def get_operation_latency (op : Operation) : Nat :=
  match op with
  | .add _ _ | .sub _ _ => 1
  | .mul _ _ => 3
  | .div _ _ => 18
  | .and _ _ | .or _ _ | .not _ => 1
  | .cmpLt _ _ | .cmpEq _ _ => 1
  | .load _ => 2
  | .store _ _ => 1
  | .const _ => 0
  | .mux _ _ _ => 1
  | .pipelineRegister _ => 1
  | .pipelineBarrier => 0
  | .nop => 0

/-! ## Public construction API as call sequences -/

/-- One call of the public construction API of `Graph`. -/
inductive ApiCall : Type where
  | newValue : ApiCall
  | addNodeWithOutput : Operation → ApiCall
  | addNode : Operation → ApiCall
  | insertPipelineRegister : Nat → ApiCall
  | enablePipeline : Nat → Nat → Nat → ApiCall
deriving DecidableEq, Repr

/-- Apply one API call, discarding the returned id. -/
def applyCall (g : Graph) : ApiCall → Graph
  | .newValue => g.new_value.2
  | .addNodeWithOutput op => (g.add_node_with_output op).2
  | .addNode op => (g.add_node op).2
  | .insertPipelineRegister v => (g.insert_pipeline_register v).2
  | .enablePipeline ii depth unroll => g.enable_pipeline ii depth unroll

/-- Run a sequence of API calls starting from the empty graph. -/
def buildGraph (calls : List ApiCall) : Graph :=
  calls.foldl applyCall Graph.new

/-! ## Pipeline scheduler (`src/passes/pipeline.rs`) -/

/-- `PipelineScheduler::new()`: the resource-constraint table. -/
def resource_constraints : List (String × Nat) :=
  [("adder", 100), ("multiplier", 12), ("divider", 4), ("memory", 8)]

/-- `self.resource_constraints.get(r).copied().unwrap_or(1)`:
classes absent from the table (e.g. `"logic"`) default to 1. -/
def budgetOf (r : String) : Nat :=
  (alookup resource_constraints r).getD 1

/-- `PipelineScheduler::get_resource_type`. -/
def get_resource_type (op : Operation) : String :=
  match op with
  | .add _ _ | .sub _ _ => "adder"
  | .mul _ _ => "multiplier"
  | .div _ _ => "divider"
  | .load _ | .store _ _ => "memory"
  | _ => "logic"

/-- Operand dependencies of a single node, in the order the source pushes
them (`PipelineScheduler::build_dependency_graph`, inner `match`). -/
def nodeDeps (g : Graph) (op : Operation) : List Nat :=
  match op with
  | .add a b | .sub a b | .mul a b | .div a b | .and a b | .or a b
  | .cmpLt a b | .cmpEq a b =>
      ((alookup g.value_map a).toList) ++ ((alookup g.value_map b).toList)
  | .not a | .pipelineRegister a => (alookup g.value_map a).toList
  | .mux sel a b =>
      ((alookup g.value_map sel).toList) ++ ((alookup g.value_map a).toList)
        ++ ((alookup g.value_map b).toList)
  | .store _ v => (alookup g.value_map v).toList
  | _ => []

/-- `PipelineScheduler::build_dependency_graph`. -/
def build_dependency_graph (g : Graph) : List (Nat × List Nat) :=
  g.nodes.foldl (fun deps node => aupdate deps node.id (nodeDeps g node.op)) []

/-- State of the ASAP work loop: the schedule so far, the FIFO ready
queue of `(node id, candidate cycle)` pairs, and the per-node
outstanding-dependency counters.  The counters are `Int` to model
release-mode `usize` wrap-around: once a counter has been decremented
past zero it never compares equal to zero again. -/
structure AsapState : Type where
  schedule : List (Nat × Nat)
  queue : List (Nat × Nat)
  counts : List (Nat × Int)
deriving Repr

/-- The initialization loop of `calculate_asap_schedule`: set every
node's dependency counter and enqueue the zero-dependency nodes at cycle 0. -/
def asapInit (g : Graph) (deps : List (Nat × List Nat)) : AsapState :=
  g.nodes.foldl
    (fun st node =>
      let d := (alookup deps node.id).getD []
      { st with
          counts := aupdate st.counts node.id (Int.ofNat d.length),
          queue := if d.isEmpty then st.queue ++ [(node.id, 0)] else st.queue })
    { schedule := [], queue := [], counts := [] }

/-- One pass of the `for dependent_node in &graph.nodes` loop that runs
after a node is popped: decrement the counter of every node whose
dependency list contains `node_id`, enqueueing it at `finish_cycle` when
the counter reaches zero. -/
def asapNotify (g : Graph) (deps : List (Nat × List Nat)) (node_id finish_cycle : Nat)
    (st : AsapState) : AsapState :=
  g.nodes.foldl
    (fun st dependent =>
      let d := (alookup deps dependent.id).getD []
      if node_id ∈ d then
        let count := ((alookup st.counts dependent.id).getD 0) - 1
        { st with
            counts := aupdate st.counts dependent.id count,
            queue := if count = 0 then st.queue ++ [(dependent.id, finish_cycle)]
                     else st.queue }
      else st)
    st

/-- The `while let Some(..) = ready_queue.pop_front()` loop of
`calculate_asap_schedule`, with fuel.  Every node is enqueued at most
once, so `g.nodes.length + 1` units of fuel always drain the queue. -/
def asapLoop (g : Graph) (deps : List (Nat × List Nat)) : Nat → AsapState → AsapState
  | 0, st => st
  | fuel + 1, st =>
      match st.queue with
      | [] => st
      | (node_id, earliest_cycle) :: rest =>
          -- `graph.nodes.iter().find(|n| n.id == node_id).unwrap()`: queue
          -- entries always name graph nodes, so the `getD 0` default is unreachable.
          let latency :=
            ((g.nodes.find? (fun n => n.id = node_id)).map
              (fun n => get_operation_latency n.op)).getD 0
          let finish_cycle := earliest_cycle + latency
          let st1 : AsapState :=
            { st with
                schedule := aupdate st.schedule node_id earliest_cycle,
                queue := rest }
          asapLoop g deps fuel (asapNotify g deps node_id finish_cycle st1)

/-- `PipelineScheduler::calculate_asap_schedule` (always returns `Ok`). -/
def calculate_asap_schedule (g : Graph) (deps : List (Nat × List Nat)) :
    List (Nat × Nat) :=
  (asapLoop g deps (g.nodes.length + 1) (asapInit g deps)).schedule

/-- `PipelineScheduler::calculate_alap_schedule` (always returns `Ok`). -/
def calculate_alap_schedule (g : Graph) (asap : List (Nat × Nat)) :
    List (Nat × Nat) :=
  let max_cycle := (asap.map (fun p => p.2)).foldl max 0
  let target_cycles := min max_cycle g.pipeline_config.pipeline_depth
  g.nodes.map (fun node =>
    let asap_time := (alookup asap node.id).getD 0
    let slack := target_cycles - asap_time
    (node.id, asap_time + slack))

/-- Stable sort by a `Nat` key (model of `Vec::sort_by_key`, which is
stable): insertion sort with the non-strict key order. -/
def sortByKey {α : Type} (key : α → Nat) (l : List α) : List α :=
  List.insertionSort (fun a b => key a ≤ key b) l

/-- Mobility key used by `resource_constrained_schedule`'s `sort_by_key`. -/
def mobilityOf (asap alap : List (Nat × Nat)) (node : Node) : Nat :=
  ((alookup alap node.id).getD 0) - ((alookup asap node.id).getD 0)

/-- Per-cycle resource usage: `(cycle, resource type) → count`
(model of the nested `HashMap<usize, HashMap<String, usize>>`). -/
abbrev Usage := List ((Nat × String) × Nat)

/-- The `for cycle in asap_time..=alap_time` scan: the first cycle of the
window whose usage of `rtype` is below budget, if any. -/
def findSlot (usage : Usage) (rtype : String) (lo hi : Nat) : Option Nat :=
  (List.range' lo (hi + 1 - lo)).find?
    (fun cycle => ((alookup usage (cycle, rtype)).getD 0) < budgetOf rtype)

/-- Place one node: reserve the found slot, or fall back to the ASAP
cycle without reserving anything when the whole window is saturated
(`scheduled_cycle` keeps its initial value `asap_time` in the source). -/
def placeNode (asap alap : List (Nat × Nat)) (node : Node)
    (acc : List (Nat × Nat) × Usage) : List (Nat × Nat) × Usage :=
  let asap_time := (alookup asap node.id).getD 0
  let alap_time := (alookup alap node.id).getD 0
  let rtype := get_resource_type node.op
  match findSlot acc.2 rtype asap_time alap_time with
  | some cycle =>
      (aupdate acc.1 node.id cycle,
       aupdate acc.2 (cycle, rtype) (((alookup acc.2 (cycle, rtype)).getD 0) + 1))
  | none => (aupdate acc.1 node.id asap_time, acc.2)

/-- `resource_constrained_schedule` together with its final resource-usage
table (the source discards the table; it is kept here so budget facts can
be stated about it). -/
def resourceSchedulePair (g : Graph) (asap alap : List (Nat × Nat)) :
    List (Nat × Nat) × Usage :=
  let nodes_by_mobility := sortByKey (mobilityOf asap alap) g.nodes
  nodes_by_mobility.foldl (fun acc node => placeNode asap alap node acc) ([], [])

/-- `PipelineScheduler::resource_constrained_schedule` (always returns `Ok`). -/
def resource_constrained_schedule (g : Graph) (asap alap : List (Nat × Nat)) :
    List (Nat × Nat) :=
  (resourceSchedulePair g asap alap).1

/-- The `registers_to_insert` collection loop of
`insert_pipeline_registers`: for every node with an output value and
**every** node of the graph scheduled more than one cycle later
(consumer or not), a `(value, stages_between)` entry. -/
def registers_to_insert (g : Graph) (schedule : List (Nat × Nat)) :
    List (Nat × Nat) :=
  g.nodes.flatMap (fun node =>
    let node_stage := (alookup schedule node.id).getD 0
    match node.output with
    | some output_val =>
        g.nodes.filterMap (fun consumer =>
          let consumer_stage := (alookup schedule consumer.id).getD 0
          if node_stage + 1 < consumer_stage then
            some (output_val, consumer_stage - node_stage - 1)
          else none)
    | none => [])

/-- Insert a chain of `stages` pipeline registers rooted at `value`,
each consuming the previous register's output. -/
def insertChain (g : Graph) (value : Nat) : Nat → Graph
  | 0 => g
  | stages + 1 =>
      let (current_value, g1) := g.insert_pipeline_register value
      insertChain g1 current_value stages

/-- `PipelineScheduler::insert_pipeline_registers` (always returns `Ok`). -/
def insert_pipeline_registers (g : Graph) (schedule : List (Nat × Nat)) : Graph :=
  (registers_to_insert g schedule).foldl
    (fun g p => insertChain g p.1 p.2) g

/-- `stages.entry(cycle).or_insert_with(..)` followed by
`stage.operations.push(node_id)`: append the node to the bucket of its
cycle, creating the bucket if needed. -/
def bucketsAdd (buckets : List (Nat × List Nat)) (cycle node_id : Nat) :
    List (Nat × List Nat) :=
  match buckets with
  | [] => [(cycle, [node_id])]
  | b :: rest =>
      if b.1 = cycle then (b.1, b.2 ++ [node_id]) :: rest
      else b :: bucketsAdd rest cycle node_id

/-- The entries of the final-schedule `HashMap` enumerated in a given
iteration order (the order is unspecified by `HashMap`; it is passed
explicitly as the list of node ids). -/
def scheduleEntries (schedule : List (Nat × Nat)) (order : List Nat) :
    List (Nat × Nat) :=
  order.filterMap (fun node_id => (alookup schedule node_id).map (fun c => (node_id, c)))

/-- `PipelineScheduler::generate_pipeline_stages`, with the `HashMap`
iteration order of `for (node_id, &cycle) in schedule` made explicit.
The final `sort_by_key(|stage| stage.stage)` makes the result independent
of the unsorted `into_values()` order because bucket keys are distinct. -/
def generate_pipeline_stages (schedule : List (Nat × Nat)) (order : List Nat) :
    List PipelineStage :=
  let buckets := (scheduleEntries schedule order).foldl
    (fun acc e => bucketsAdd acc e.2 e.1) []
  sortByKey (fun s => s.stage)
    (buckets.map (fun b => { stage := b.1, cycle := b.1, operations := b.2 }))

/-- `PipelineScheduler::schedule_pipeline`, parameterized by the `HashMap`
iteration order used in step 6 (`generate_pipeline_stages`). -/
def schedule_pipeline_with (order : List Nat) (g : Graph) : Except String Graph :=
  if !g.pipeline_config.enable then .ok g
  else
    let dependencies := build_dependency_graph g
    let asap_schedule := calculate_asap_schedule g dependencies
    let alap_schedule := calculate_alap_schedule g asap_schedule
    let final_schedule := resource_constrained_schedule g asap_schedule alap_schedule
    let g1 := insert_pipeline_registers g final_schedule
    .ok { g1 with pipeline_stages := generate_pipeline_stages final_schedule order }

/-- `schedule_pipeline` with the insertion-order enumeration of the
schedule map (one legitimate `HashMap` iteration order). -/
def schedule_pipeline (g : Graph) : Except String Graph :=
  schedule_pipeline_with (g.nodes.map (fun n => n.id)) g

/-- Steps 1–4 of `schedule_pipeline`: the final cycle assignment. -/
def fullSchedule (g : Graph) : List (Nat × Nat) :=
  let dependencies := build_dependency_graph g
  let asap_schedule := calculate_asap_schedule g dependencies
  let alap_schedule := calculate_alap_schedule g asap_schedule
  resource_constrained_schedule g asap_schedule alap_schedule

/-- Steps 1–4 of `schedule_pipeline`: the final resource-usage table. -/
def fullUsage (g : Graph) : Usage :=
  let dependencies := build_dependency_graph g
  let asap_schedule := calculate_asap_schedule g dependencies
  let alap_schedule := calculate_alap_schedule g asap_schedule
  (resourceSchedulePair g asap_schedule alap_schedule).2

/-- The graph produced by a successful `schedule_pipeline` run
(`schedule_pipeline` never returns `Err`, see `c7_amended_never_fails`). -/
def schedResult (g : Graph) : Graph :=
  match schedule_pipeline g with
  | .ok g1 => g1
  | .error _ => g

/-! ## RTL emitter (`src/backend/verilog.rs`)

Literal `{`, `}` and `'` characters of the emitted Verilog text are
written with `\x7b`, `\x7d` and `\x27` escapes.  Panics (the
out-of-bounds slice `&analysis.inputs[4..]` of `generate_mac_pipeline`)
are modelled by `Option`, with `none` for a panic. -/

/-- `ComputationPattern` from `verilog.rs`. -/
inductive ComputationPattern : Type where
  | MAC : ComputationPattern
  | SimpleArithmetic : ComputationPattern
  | Complex : ComputationPattern
deriving DecidableEq, Repr

/-- `ComputationAnalysis` from `verilog.rs`. -/
structure ComputationAnalysis : Type where
  pattern : ComputationPattern
  logical_stages : Nat
  description : String
  inputs : List String
  outputs : List String
deriving DecidableEq, Repr

/-- Accumulator of `analyze_computation_pattern`'s scan loop. -/
structure ScanAcc : Type where
  mul_count : Nat
  add_count : Nat
  inputs : List String
  outputs : List String

/-- One step of `analyze_computation_pattern`'s scan loop. -/
def scanStep (acc : ScanAcc) (node : Node) : ScanAcc :=
  match node.op with
  | .mul _ _ => { acc with mul_count := acc.mul_count + 1 }
  | .add _ _ => { acc with add_count := acc.add_count + 1 }
  | .load name => { acc with inputs := acc.inputs ++ [name] }
  | .store name _ => { acc with outputs := acc.outputs ++ [name] }
  | _ => acc

/-- `analyze_computation_pattern`: count `Mul`/`Add` nodes and collect
`Load`/`Store` names (without deduplication), then classify. -/
def analyze_computation_pattern (g : Graph) : ComputationAnalysis :=
  let acc := g.nodes.foldl scanStep
    { mul_count := 0, add_count := 0, inputs := [], outputs := [] }
  let pattern :=
    if 2 ≤ acc.mul_count ∧ 2 ≤ acc.add_count then ComputationPattern.MAC
    else if acc.mul_count ≤ 1 ∧ acc.add_count ≤ 2 then ComputationPattern.SimpleArithmetic
    else ComputationPattern.Complex
  let stagesDesc : Nat × String :=
    match pattern with
    | .MAC => (5, "MAC")
    | .SimpleArithmetic => (3, "arithmetic")
    | .Complex => (4, "complex")
  { pattern := pattern, logical_stages := stagesDesc.1, description := stagesDesc.2,
    inputs := acc.inputs, outputs := acc.outputs }

/-- `generate_pipeline_control`. -/
def generate_pipeline_control (stages : Nat) : String :=
  "    // Pipeline control logic\n"
  ++ "    always @(posedge ap_clk) begin\n"
  ++ "        if (!ap_rst_n) begin\n"
  ++ "            pipeline_valid <= " ++ toString stages ++ "\x27b"
      ++ String.mk (List.replicate stages '0') ++ ";\n"
  ++ "            pipeline_counter <= 4\x27b0000;\n"
  ++ "            ap_done <= 1\x27b0;\n"
  ++ "        end else begin\n"
  ++ "            // Shift pipeline valid bits\n"
  ++ "            pipeline_valid <= \x7bpipeline_valid[" ++ toString (stages - 2)
      ++ ":0], ap_start && ap_ready\x7d;\n"
  ++ "            \n"
  ++ "            // Update counter\n"
  ++ "            if (ap_start && ap_ready) begin\n"
  ++ "                if (pipeline_counter < " ++ toString stages ++ ") begin\n"
  ++ "                    pipeline_counter <= pipeline_counter + 1;\n"
  ++ "                end\n"
  ++ "            end else if (pipeline_counter > 0 && pipeline_valid["
      ++ toString (stages - 1) ++ "]) begin\n"
  ++ "                pipeline_counter <= pipeline_counter - 1;\n"
  ++ "            end\n"
  ++ "            \n"
  ++ "            // Output done signal when result emerges from pipeline\n"
  ++ "            ap_done <= pipeline_valid[" ++ toString (stages - 1) ++ "];\n"
  ++ "        end\n"
  ++ "    end\n"
  ++ "    \n"

/-- `generate_mac_stage_0`. -/
def generate_mac_stage_0 (inputs : List String) : String :=
  "    // Pipeline Stage 0: Input Registration\n"
  ++ "    always @(posedge ap_clk) begin\n"
  ++ "        if (!ap_rst_n) begin\n"
  ++ String.join (inputs.map (fun i =>
      "            " ++ i ++ "_reg0 <= \x7bDATA_WIDTH\x7b1\x27b0\x7d\x7d;\n"))
  ++ "        end else if (pipeline_valid[0]) begin\n"
  ++ String.join (inputs.map (fun i =>
      "            " ++ i ++ "_reg0 <= " ++ i ++ ";\n"))
  ++ "        end\n"
  ++ "    end\n"
  ++ "    \n"

/-- `generate_mac_stage_1` (total given at least four inputs; the caller
checks that bound before the slices `inputs[0..=3]` and `inputs[4..]`). -/
def generate_mac_stage_1 (inputs : List String) : String :=
  "    // Pipeline Stage 1: Parallel Multiplications (DSP48E2 optimized for AU50)\n"
  ++ "    always @(posedge ap_clk) begin\n"
  ++ "        if (!ap_rst_n) begin\n"
  ++ "            mult_ab_reg1 <= \x7bDATA_WIDTH\x7b1\x27b0\x7d\x7d;\n"
  ++ "            mult_cd_reg1 <= \x7bDATA_WIDTH\x7b1\x27b0\x7d\x7d;\n"
  ++ String.join ((inputs.drop 4).map (fun i =>
      "            " ++ i ++ "_reg1 <= \x7bDATA_WIDTH\x7b1\x27b0\x7d\x7d;\n"))
  ++ "        end else if (pipeline_valid[1]) begin\n"
  ++ "            // Force DSP48E2 usage for AU50 optimization\n"
  ++ "            (* USE_DSP = \"yes\", DSP_A_INPUT = \"DIRECT\", DSP_B_INPUT = \"DIRECT\" *) \n"
  ++ "            mult_ab_reg1 <= " ++ inputs.getD 0 "" ++ "_reg0 * "
      ++ inputs.getD 1 "" ++ "_reg0;\n"
  ++ "            (* USE_DSP = \"yes\", DSP_A_INPUT = \"DIRECT\", DSP_B_INPUT = \"DIRECT\" *) \n"
  ++ "            mult_cd_reg1 <= " ++ inputs.getD 2 "" ++ "_reg0 * "
      ++ inputs.getD 3 "" ++ "_reg0;\n"
  ++ String.join ((inputs.drop 4).map (fun i =>
      "            " ++ i ++ "_reg1 <= " ++ i ++ "_reg0;  // Pass through\n"))
  ++ "        end\n"
  ++ "    end\n"
  ++ "    \n"

/-- `generate_mac_stage_2`. -/
def generate_mac_stage_2 (inputs : List String) : String :=
  "    // Pipeline Stage 2: First Addition (mult_ab + mult_cd)\n"
  ++ "    always @(posedge ap_clk) begin\n"
  ++ "        if (!ap_rst_n) begin\n"
  ++ "            add_mult_reg2 <= \x7bDATA_WIDTH\x7b1\x27b0\x7d\x7d;\n"
  ++ String.join ((inputs.drop 4).map (fun i =>
      "            " ++ i ++ "_reg2 <= \x7bDATA_WIDTH\x7b1\x27b0\x7d\x7d;\n"))
  ++ "        end else if (pipeline_valid[2]) begin\n"
  ++ "            add_mult_reg2 <= mult_ab_reg1 + mult_cd_reg1;\n"
  ++ String.join ((inputs.drop 4).map (fun i =>
      "            " ++ i ++ "_reg2 <= " ++ i ++ "_reg1;  // Pass through\n"))
  ++ "        end\n"
  ++ "    end\n"
  ++ "    \n"

/-- `generate_mac_stage_3`. -/
def generate_mac_stage_3 : String :=
  "    // Pipeline Stage 3: Final Addition (result = (a*b + c*d) + e)\n"
  ++ "    always @(posedge ap_clk) begin\n"
  ++ "        if (!ap_rst_n) begin\n"
  ++ "            result_reg3 <= \x7bDATA_WIDTH\x7b1\x27b0\x7d\x7d;\n"
  ++ "        end else if (pipeline_valid[3]) begin\n"
  ++ "            result_reg3 <= add_mult_reg2 + e_reg2;\n"
  ++ "        end\n"
  ++ "    end\n"
  ++ "    \n"

/-- `generate_mac_stage_4`. -/
def generate_mac_stage_4 (outputs : List String) : String :=
  "    // Pipeline Stage 4: Output Assignment\n"
  ++ "    always @(posedge ap_clk) begin\n"
  ++ "        if (!ap_rst_n) begin\n"
  ++ String.join (outputs.map (fun o =>
      "            " ++ o ++ " <= \x7bDATA_WIDTH\x7b1\x27b0\x7d\x7d;\n"))
  ++ "        end else if (pipeline_valid[4]) begin\n"
  ++ String.join (outputs.map (fun o =>
      "            " ++ o ++ " <= result_reg3;\n"))
  ++ "        end\n"
  ++ "    end\n"

/-- `generate_mac_pipeline`.  The source slices `&analysis.inputs[4..]`
(and indexes `inputs[0]`–`inputs[3]`), which panics when the analysis
collected fewer than four input names; the panic is `none`. -/
def generate_mac_pipeline (analysis : ComputationAnalysis) : Option String :=
  if analysis.inputs.length < 4 then none
  else some (
    "    // Pipeline control signals\n"
    ++ "    reg [" ++ toString (analysis.logical_stages - 1)
        ++ ":0] pipeline_valid;  // " ++ toString analysis.logical_stages
        ++ "-stage pipeline\n"
    ++ "    reg [3:0] pipeline_counter;\n"
    ++ "    \n"
    ++ "    // Pipeline registers for Stage 0 (Input Registration)\n"
    ++ String.join (analysis.inputs.map (fun i =>
        "    reg [DATA_WIDTH-1:0] " ++ i ++ "_reg0;\n"))
    ++ "    \n"
    ++ "    // Pipeline registers for Stage 1 (Multiplication)\n"
    ++ "    reg [DATA_WIDTH-1:0] mult_ab_reg1, mult_cd_reg1;\n"
    ++ String.join ((analysis.inputs.drop 4).map (fun i =>
        "    reg [DATA_WIDTH-1:0] " ++ i ++ "_reg1;\n"))
    ++ "    \n"
    ++ "    // Pipeline registers for Stage 2 (First Addition)\n"
    ++ "    reg [DATA_WIDTH-1:0] add_mult_reg2;\n"
    ++ String.join ((analysis.inputs.drop 4).map (fun i =>
        "    reg [DATA_WIDTH-1:0] " ++ i ++ "_reg2;\n"))
    ++ "    \n"
    ++ "    // Pipeline registers for Stage 3 (Final Addition)\n"
    ++ "    reg [DATA_WIDTH-1:0] result_reg3;\n"
    ++ "    \n"
    ++ "    // Control logic\n"
    ++ "    assign ap_idle = (pipeline_counter == 0);\n"
    ++ "    assign ap_ready = (pipeline_counter < " ++ toString analysis.logical_stages
        ++ ");  // Can accept new input when not full\n"
    ++ "    \n"
    ++ generate_pipeline_control analysis.logical_stages
    ++ generate_mac_stage_0 analysis.inputs
    ++ generate_mac_stage_1 analysis.inputs
    ++ generate_mac_stage_2 analysis.inputs
    ++ generate_mac_stage_3
    ++ generate_mac_stage_4 analysis.outputs)

/-- `generate_arithmetic_pipeline` (a stub in the source). -/
def generate_arithmetic_pipeline (analysis : ComputationAnalysis) : String :=
  "    // Simple arithmetic pipeline\n"
  ++ "    reg [" ++ toString (analysis.logical_stages - 1) ++ ":0] pipeline_valid;\n"
  ++ "    reg [2:0] pipeline_counter;\n"

/-- `generate_generic_pipeline` (a stub in the source; it ignores the graph). -/
def generate_generic_pipeline : String :=
  "    // Generic complex pipeline\n"

/-- The input/output-name collection loop of `generate_module_header`
(unlike the analysis, these lists are deduplicated). -/
def headerPorts (nodes : List Node) : List String × List String :=
  nodes.foldl
    (fun acc node =>
      match node.op with
      | .load name => if name ∈ acc.1 then acc else (acc.1 ++ [name], acc.2)
      | .store name _ => if name ∈ acc.2 then acc else (acc.1, acc.2 ++ [name])
      | _ => acc)
    ([], [])

/-- `generate_module_header`. -/
def generate_module_header (g : Graph) (module_name : String) : String :=
  let ports := headerPorts g.nodes
  let inputs := ports.1
  let outputs := ports.2
  "module " ++ module_name ++ " #(\n"
  ++ "    parameter integer DATA_WIDTH = 32,\n"
  ++ "    parameter integer ADDR_WIDTH = 16\n"
  ++ ") (\n"
  ++ "    // Clock and Reset\n"
  ++ "    input  wire                    ap_clk,\n"
  ++ "    input  wire                    ap_rst_n,\n"
  ++ "    \n"
  ++ "    // Control signals (HLS-style)\n"
  ++ "    input  wire                    ap_start,\n"
  ++ "    output reg                     ap_done,\n"
  ++ "    output wire                    ap_idle,\n"
  ++ "    output wire                    ap_ready,\n"
  ++ (if inputs.isEmpty then "" else
      "    \n    // Data inputs"
      ++ (if inputs.length = 5 ∧ "a" ∈ inputs ∧ "e" ∈ inputs then
            " - MAC: result = (a * b) + (c * d) + e\n"
          else "\n")
      ++ String.join (inputs.map (fun i =>
          "    input  wire [DATA_WIDTH-1:0]  " ++ i ++ ",\n")))
  ++ (if outputs.isEmpty then "" else
      "    \n    // Data outputs\n"
      ++ String.join (outputs.enum.map (fun p =>
          let comma := if p.1 = outputs.length - 1 then "" else ","
          "    output reg  [DATA_WIDTH-1:0]  " ++ p.2 ++ comma ++ "\n")))
  ++ ");\n\n"

/-- `generate_simple_module` (never panics). -/
def generate_simple_module (g : Graph) (module_name : String) : String :=
  "// Generated for AMD Alveo U50 - SIMPLE VERSION\n"
  ++ "// synthesis translate_off\n"
  ++ "`timescale 1ns / 1ps\n"
  ++ "// synthesis translate_on\n\n"
  ++ generate_module_header g module_name
  ++ "    // Simple control state machine\n"
  ++ "    (* DONT_TOUCH = \"yes\" *) reg [1:0] state;\n"
  ++ "    localparam IDLE = 2\x27b00, COMPUTE = 2\x27b01, DONE = 2\x27b10;\n"
  ++ "    \n"
  ++ "    assign ap_idle = (state == IDLE);\n"
  ++ "    assign ap_ready = (state == IDLE);\n"
  ++ "\nendmodule\n"

/-- `generate_clean_pipelined_module`; `none` when the pattern dispatch
panics (MAC pattern with fewer than four collected inputs). -/
def generate_clean_pipelined_module (g : Graph) (module_name : String) :
    Option String :=
  let analysis := analyze_computation_pattern g
  let header :=
    "// Generated for AMD Alveo U50 - PIPELINED VERSION (CLEAN)\n"
    ++ "// Pipeline: " ++ toString analysis.logical_stages ++ "-stage "
        ++ analysis.description ++ " implementation\n"
    ++ "// synthesis translate_off\n"
    ++ "`timescale 1ns / 1ps\n"
    ++ "// synthesis translate_on\n\n"
    ++ generate_module_header g module_name
  let body : Option String :=
    match analysis.pattern with
    | .MAC => generate_mac_pipeline analysis
    | .SimpleArithmetic => some (generate_arithmetic_pipeline analysis)
    | .Complex => some generate_generic_pipeline
  body.map (fun b => header ++ b ++ "\nendmodule\n")

/-- `generate_verilog_module`; `none` models a panic. -/
def generate_verilog_module (g : Graph) (module_name : String) : Option String :=
  if g.pipeline_config.enable ∧ ¬g.pipeline_stages.isEmpty then
    generate_clean_pipelined_module g module_name
  else some (generate_simple_module g module_name)

/-! ## Concrete graphs used by the claim theorems -/

/-- `Load "x"`; `Const 5`; `Add(v0, v1)`; pipelining enabled.
Node ids 0/1/2 produce values 0/1/2. -/
def exCG1 : Graph :=
  buildGraph [.addNodeWithOutput (.load "x"), .addNodeWithOutput (.const 5),
    .addNodeWithOutput (.add 0 1), .enablePipeline 1 8 1]

/-- `Load "a"`; `Load "b"`; `Mul(v0, v1)`; `Store("o", v2)`; pipelining enabled. -/
def exCG3 : Graph :=
  buildGraph [.addNodeWithOutput (.load "a"), .addNodeWithOutput (.load "b"),
    .addNodeWithOutput (.mul 0 1), .addNode (.store "o" 2), .enablePipeline 1 8 1]

/-- Two constants and five independent `Div(v0, v1)` nodes; pipelining
enabled.  All seven nodes have a one-cycle `[ASAP, ALAP]` window at
cycle 0, which saturates the divider budget of 4. -/
def exCG4 : Graph :=
  buildGraph [.addNodeWithOutput (.const 1), .addNodeWithOutput (.const 2),
    .addNodeWithOutput (.div 0 1), .addNodeWithOutput (.div 0 1),
    .addNodeWithOutput (.div 0 1), .addNodeWithOutput (.div 0 1),
    .addNodeWithOutput (.div 0 1), .enablePipeline 1 8 1]

/-- `Load "x"`; `Load "y"`; `Mul(v0, v1)`; pipelining enabled.  The
multiplier lands at cycle 2, leaving cycle 1 empty. -/
def exCG5 : Graph :=
  buildGraph [.addNodeWithOutput (.load "x"), .addNodeWithOutput (.load "y"),
    .addNodeWithOutput (.mul 0 1), .enablePipeline 1 8 1]

/-- Two constant nodes, both scheduled at cycle 0; pipelining enabled. -/
def exCG6 : Graph :=
  buildGraph [.addNodeWithOutput (.const 1), .addNodeWithOutput (.const 2),
    .enablePipeline 1 8 1]

/-- Two `Mul` and two `Add` nodes over constants and no `Load` node:
classified as the MAC pattern with an empty input list. -/
def exCG8 : Graph :=
  buildGraph [.addNodeWithOutput (.const 1), .addNodeWithOutput (.const 2),
    .addNodeWithOutput (.mul 0 1), .addNodeWithOutput (.mul 0 1),
    .addNodeWithOutput (.add 2 3), .addNodeWithOutput (.add 4 0),
    .enablePipeline 1 8 1]

/-! ## Observation helpers used in claim statements -/

/-- The value ids an operation reads (same `match` as
`build_dependency_graph`, before the producer lookup). -/
def operandValues (op : Operation) : List Nat :=
  match op with
  | .add a b | .sub a b | .mul a b | .div a b | .and a b | .or a b
  | .cmpLt a b | .cmpEq a b => [a, b]
  | .not a | .pipelineRegister a => [a]
  | .mux sel a b => [sel, a, b]
  | .store _ v => [v]
  | _ => []

/-- `true` iff the operation is a `PipelineRegister`. -/
def isPipelineReg (op : Operation) : Bool :=
  match op with
  | .pipelineRegister _ => true
  | _ => false

/-- Number of `PipelineRegister` nodes that consume `v` directly. -/
def directRegCount (g : Graph) (v : Nat) : Nat :=
  g.nodes.countP (fun n => n.op = Operation.pipelineRegister v)

/-- Modelled from the spec (§4.6): the number of *operand-edge*
consumers of `v` scheduled at least two cycles after `v`'s producer —
under the claim, exactly this many register chains (hence this many
registers consuming `v` directly) are inserted for `v`. -/
def specChainHeadCount (g : Graph) (schedule : List (Nat × Nat)) (v : Nat) : Nat :=
  match alookup g.value_map v with
  | none => 0
  | some p =>
      let cp := (alookup schedule p).getD 0
      g.nodes.countP (fun c =>
        (operandValues c.op).contains v &&
          decide (cp + 2 ≤ (alookup schedule c.id).getD 0))

/-- Sum over all ordered pairs of nodes `(p, q)` where `p` has an output
value, of `cycle(q) − cycle(p) − 1` when `cycle(q) ≥ cycle(p) + 2`
(whether or not `q` consumes `p`'s value). -/
def registerGapSum (g : Graph) (schedule : List (Nat × Nat)) : Nat :=
  (g.nodes.map (fun node =>
    match node.output with
    | some _ =>
        let ns := (alookup schedule node.id).getD 0
        (g.nodes.map (fun consumer =>
          let cs := (alookup schedule consumer.id).getD 0
          if ns + 1 < cs then cs - ns - 1 else 0)).sum
    | none => 0)).sum

/-- Number of nodes of resource class `r` assigned cycle `c`. -/
def classCountAt (g : Graph) (schedule : List (Nat × Nat)) (r : String) (c : Nat) :
    Nat :=
  g.nodes.countP (fun n =>
    decide (get_resource_type n.op = r) && decide (alookup schedule n.id = some c))

/-- Number of `Mul` nodes of a graph. -/
def mulCountOf (g : Graph) : Nat :=
  g.nodes.countP (fun n => match n.op with | .mul _ _ => true | _ => false)

/-- Number of `Add` nodes of a graph. -/
def addCountOf (g : Graph) : Nat :=
  g.nodes.countP (fun n => match n.op with | .add _ _ => true | _ => false)

/-- `true` iff a `Result` is `Ok`. -/
def isOkE {ε α : Type} : Except ε α → Bool
  | .ok _ => true
  | .error _ => false

/-- The graph of a `schedule_pipeline_with` run (which never fails). -/
def schedWithResult (order : List Nat) (g : Graph) : Graph :=
  match schedule_pipeline_with order g with
  | .ok g1 => g1
  | .error _ => g

/-- The stage list of a `schedule_pipeline_with` run. -/
def stagesWith (order : List Nat) (g : Graph) : List PipelineStage :=
  (schedWithResult order g).pipeline_stages

/-- The multiset of `(node id, cycle)` assignments recorded in a stage list. -/
def stagePairs (stages : List PipelineStage) : List (Nat × Nat) :=
  stages.flatMap (fun s => s.operations.map (fun n => (n, s.cycle)))

/-- The `(node, cycle)` multiset stored in a bucket list. -/
def bflat (buckets : List (Nat × List Nat)) : List (Nat × Nat) :=
  buckets.flatMap (fun b => b.2.map (fun n => (n, b.1)))

/-- Every entry of a resource-usage table is within budget. -/
def UsageBounded (u : Usage) : Prop :=
  ∀ c r, (alookup u (c, r)).getD 0 ≤ budgetOf r

/-- The invariant of graphs reachable through the public construction API. -/
structure BuilderInv (g : Graph) : Prop where
  ids : g.nodes.map (fun n => n.id) = List.range g.nodes.length
  next_node_eq : g.next_node = g.nodes.length
  out_bound : ∀ v ∈ g.nodes.filterMap (fun n => n.output), v < g.next_value
  out_nodup : (g.nodes.filterMap (fun n => n.output)).Nodup
  vmap_eq : g.value_map = g.nodes.filterMap (fun n => n.output.map (fun v => (v, n.id)))

/-- The value ids minted by one API call: the ids returned by
`new_value`, `add_node_with_output` and `insert_pipeline_register`
(`add_node` and `enable_pipeline` mint nothing). -/
def mintedBy (g : Graph) : ApiCall → List Nat
  | .newValue => [g.new_value.1]
  | .addNodeWithOutput op => [(g.add_node_with_output op).1]
  | .insertPipelineRegister v => [(g.insert_pipeline_register v).1]
  | .addNode _ => []
  | .enablePipeline _ _ _ => []

/-- All value ids minted while running a call sequence from `g`, in order. -/
def mintedValues : List ApiCall → Graph → List Nat
  | [], _ => []
  | c :: cs, g => mintedBy g c ++ mintedValues cs (applyCall g c)

/-- The output value of the node a call creates, when it creates one. -/
def outputOf (g : Graph) : ApiCall → Option Nat
  | .addNodeWithOutput op => some (g.add_node_with_output op).1
  | .insertPipelineRegister v => some (g.insert_pipeline_register v).1
  | _ => none

/-- A call sequence with a bare `new_value` call before the first
node-creating call (the bare call mints value 0, the first node's output
is value 1). -/
def exCalls10 : List ApiCall :=
  [.newValue, .addNodeWithOutput (.load "x"), .addNodeWithOutput (.const 5),
   .addNodeWithOutput (.add 1 2)]

/-! ## Helper lemmas -/

theorem alookup_aupdate_self {α β : Type} [DecidableEq α]
    (m : List (α × β)) (k : α) (v : β) :
    alookup (aupdate m k v) k = some v := by
  induction m with
  | nil => simp [aupdate, alookup, List.find?]
  | cons p rest ih =>
      by_cases hpk : p.1 = k
      · simp [aupdate, hpk, alookup, List.find?]
      · simp only [aupdate, if_neg hpk]
        simpa [alookup, List.find?, hpk] using ih

theorem alookup_aupdate_ne {α β : Type} [DecidableEq α]
    (m : List (α × β)) (k : α) (v : β) (k' : α) (h : k' ≠ k) :
    alookup (aupdate m k v) k' = alookup m k' := by
  have hkk : ¬ (k = k') := fun e => h e.symm
  induction m with
  | nil => simp [aupdate, alookup, List.find?, hkk]
  | cons p rest ih =>
      by_cases hpk : p.1 = k
      · have hp : ¬ p.1 = k' := by rw [hpk]; exact hkk
        simp [aupdate, hpk, alookup, List.find?, hp, hkk]
      · by_cases hp' : p.1 = k'
        · simp only [aupdate, if_neg hpk]
          simp [alookup, List.find?, hp']
        · simp only [aupdate, if_neg hpk]
          simpa [alookup, List.find?, hp'] using ih

theorem aupdate_append_of_fresh {α β : Type} [DecidableEq α]
    (m : List (α × β)) (k : α) (v : β) (h : ∀ p ∈ m, p.1 ≠ k) :
    aupdate m k v = m ++ [(k, v)] := by
  induction m with
  | nil => rfl
  | cons p rest ih =>
      have hp : ¬ p.1 = k := h p (List.mem_cons_self p rest)
      rw [aupdate, if_neg hp, ih (fun q hq => h q (List.mem_cons_of_mem p hq))]
      rfl

theorem sortByKey_perm {α : Type} (key : α → Nat) (l : List α) :
    (sortByKey key l).Perm l := by
  unfold sortByKey
  exact List.perm_insertionSort _ _

theorem sortByKey_sorted {α : Type} (key : α → Nat) (l : List α) :
    (sortByKey key l).Pairwise (fun a b => key a ≤ key b) := by
  unfold sortByKey
  haveI : IsTotal α (fun a b => key a ≤ key b) := ⟨fun a b => Nat.le_total _ _⟩
  haveI : IsTrans α (fun a b => key a ≤ key b) := ⟨fun _ _ _ => Nat.le_trans⟩
  exact List.sorted_insertionSort _ _

theorem perm_flatMap {α β : Type} (f : α → List β) {l1 l2 : List α}
    (h : l1.Perm l2) : (l1.flatMap f).Perm (l2.flatMap f) := by
  rw [List.flatMap_def, List.flatMap_def]
  exact (h.map f).flatten

theorem findSlot_lt (u : Usage) (r : String) (lo hi c : Nat)
    (h : findSlot u r lo hi = some c) :
    (alookup u (c, r)).getD 0 < budgetOf r := by
  have := List.find?_some h
  simpa using this

theorem usageBounded_place (asap alap : List (Nat × Nat)) (node : Node)
    (acc : List (Nat × Nat) × Usage) (h : UsageBounded acc.2) :
    UsageBounded (placeNode asap alap node acc).2 := by
  unfold placeNode
  cases hf : findSlot acc.2 (get_resource_type node.op)
      ((alookup asap node.id).getD 0) ((alookup alap node.id).getD 0) with
  | none => simp only [hf]; exact h
  | some cycle =>
      simp only [hf]
      intro c r
      by_cases hk : ((c, r) : Nat × String) = (cycle, get_resource_type node.op)
      · rw [hk, alookup_aupdate_self]
        have hlt := findSlot_lt _ _ _ _ _ hf
        have hr : r = get_resource_type node.op := congrArg Prod.snd hk
        simp only [Option.getD_some, hr]
        omega
      · rw [alookup_aupdate_ne _ _ _ _ hk]
        exact h c r

theorem usageBounded_fold (asap alap : List (Nat × Nat)) (nodes : List Node)
    (acc : List (Nat × Nat) × Usage) (h : UsageBounded acc.2) :
    UsageBounded (nodes.foldl (fun acc node => placeNode asap alap node acc) acc).2 := by
  induction nodes generalizing acc with
  | nil => exact h
  | cons n ns ih => exact ih _ (usageBounded_place asap alap n acc h)

theorem insert_pipeline_register_nodes (g : Graph) (v : Nat) :
    ((g.insert_pipeline_register v).2).nodes
      = g.nodes ++ [{ id := g.next_node, op := Operation.pipelineRegister v,
                      output := some g.next_value }] := rfl

theorem insertChain_shape (k : Nat) (g : Graph) (v : Nat) :
    ∃ l : List Node,
      (insertChain g v k).nodes = g.nodes ++ l ∧ l.length = k ∧
        l.all (fun n => isPipelineReg n.op) = true := by
  induction k generalizing g v with
  | zero => exact ⟨[], by simp [insertChain]⟩
  | succ k ih =>
      obtain ⟨l, hn, hl, hreg⟩ := ih (g.insert_pipeline_register v).2 g.next_value
      refine ⟨{ id := g.next_node, op := Operation.pipelineRegister v,
                output := some g.next_value } :: l, ?_, by simp [hl], ?_⟩
      · show (insertChain (g.insert_pipeline_register v).2 g.next_value k).nodes = _
        rw [hn, insert_pipeline_register_nodes]
        simp
      · simp only [List.all_cons, hreg, Bool.and_true]
        rfl

theorem regsFold_shape (pairs : List (Nat × Nat)) (g : Graph) :
    ∃ l : List Node,
      (pairs.foldl (fun g p => insertChain g p.1 p.2) g).nodes = g.nodes ++ l ∧
        l.length = (pairs.map (fun p => p.2)).sum ∧
        l.all (fun n => isPipelineReg n.op) = true := by
  induction pairs generalizing g with
  | nil => exact ⟨[], by simp⟩
  | cons p ps ih =>
      obtain ⟨l1, hn1, hl1, hr1⟩ := insertChain_shape p.2 g p.1
      obtain ⟨l2, hn2, hl2, hr2⟩ := ih (insertChain g p.1 p.2)
      refine ⟨l1 ++ l2, ?_, ?_, ?_⟩
      · rw [List.foldl_cons, hn2, hn1, List.append_assoc]
      · simp [hl1, hl2]
      · simp only [List.all_append, hr1, hr2, Bool.and_self]

theorem gapSum_inner (s : List (Nat × Nat)) (ns v : Nat) (nodes : List Node) :
    ((nodes.filterMap (fun consumer =>
        let consumer_stage := (alookup s consumer.id).getD 0
        if ns + 1 < consumer_stage then some (v, consumer_stage - ns - 1)
        else none)).map (fun p => p.2)).sum
      = (nodes.map (fun consumer =>
          let cs := (alookup s consumer.id).getD 0
          if ns + 1 < cs then cs - ns - 1 else 0)).sum := by
  induction nodes with
  | nil => simp
  | cons c cs ih =>
      by_cases h : ns + 1 < (alookup s c.id).getD 0 <;>
        simp [List.filterMap_cons, h, ih]

theorem gapSum_eq (g : Graph) (s : List (Nat × Nat)) :
    ((registers_to_insert g s).map (fun p => p.2)).sum = registerGapSum g s := by
  unfold registers_to_insert registerGapSum
  rw [List.map_flatMap, List.flatMap_def, List.sum_flatten, List.map_map]
  refine congrArg List.sum (List.map_congr_left (fun node _ => ?_))
  obtain ⟨nid, nop, nout⟩ := node
  cases nout with
  | none => simp
  | some v =>
      simpa using gapSum_inner s ((alookup s nid).getD 0) v g.nodes

theorem bucketsAdd_flat (buckets : List (Nat × List Nat)) (c n : Nat) :
    (bflat (bucketsAdd buckets c n)).Perm (bflat buckets ++ [(n, c)]) := by
  induction buckets with
  | nil => simp [bucketsAdd, bflat]
  | cons b bs ih =>
      by_cases h : b.1 = c
      · simp only [bucketsAdd, if_pos h, bflat, List.flatMap_cons]
        rw [h]
        simp only [List.map_append, List.map_cons, List.map_nil]
        rw [List.append_assoc, List.append_assoc]
        exact List.Perm.append_left _ (List.perm_append_comm)
      · simp only [bucketsAdd, if_neg h, bflat, List.flatMap_cons]
        rw [List.append_assoc]
        exact List.Perm.append_left _ (by simpa [bflat] using ih)

theorem bucketsFold_flat (entries : List (Nat × Nat)) (acc : List (Nat × List Nat)) :
    (bflat (entries.foldl (fun acc e => bucketsAdd acc e.2 e.1) acc)).Perm
      (bflat acc ++ entries) := by
  induction entries generalizing acc with
  | nil => simp
  | cons e es ih =>
      rw [List.foldl_cons]
      refine (ih (bucketsAdd acc e.2 e.1)).trans ?_
      refine ((bucketsAdd_flat acc e.2 e.1).append_right es).trans ?_
      have he : (bflat acc ++ [(e.1, e.2)]) ++ es = bflat acc ++ (e :: es) := by simp
      rw [he]

theorem stagePairs_fst (stages : List PipelineStage) :
    (stagePairs stages).map (fun p => p.1) = stages.flatMap (fun st => st.operations) := by
  simp only [stagePairs, List.map_flatMap, List.map_map]
  refine congrArg (fun f => stages.flatMap f) (funext (fun a => ?_))
  rw [show ((fun p : Nat × Nat => p.1) ∘ fun n => (n, a.cycle)) = fun n => n from
    funext (fun n => rfl)]
  exact List.map_id' a.operations

theorem stagePairs_gen (s : List (Nat × Nat)) (o : List Nat) :
    (stagePairs (generate_pipeline_stages s o)).Perm (scheduleEntries s o) := by
  unfold stagePairs generate_pipeline_stages
  refine (perm_flatMap _ (sortByKey_perm _ _)).trans ?_
  rw [List.flatMap_map]
  simpa [bflat] using bucketsFold_flat (scheduleEntries s o) []

theorem gen_stages_sorted (s : List (Nat × Nat)) (o : List Nat) :
    (generate_pipeline_stages s o).Pairwise (fun a b => a.stage ≤ b.stage) := by
  unfold generate_pipeline_stages
  exact sortByKey_sorted _ _

theorem gen_stages_stage_eq_cycle (s : List (Nat × Nat)) (o : List Nat)
    (st : PipelineStage) (h : st ∈ generate_pipeline_stages s o) :
    st.stage = st.cycle := by
  unfold generate_pipeline_stages at h
  have h2 := (sortByKey_perm (fun st : PipelineStage => st.stage) _).mem_iff.mp h
  obtain ⟨b, _, rfl⟩ := List.mem_map.mp h2
  rfl

theorem scheduleEntries_fst (s : List (Nat × Nat)) (o : List Nat) :
    (scheduleEntries s o).map (fun e => e.1)
      = o.filter (fun n => (alookup s n).isSome) := by
  induction o with
  | nil => rfl
  | cons a os ih =>
      unfold scheduleEntries at *
      cases h : alookup s a with
      | none => simp [List.filterMap_cons, h, List.filter_cons, ih]
      | some c => simp [List.filterMap_cons, h, List.filter_cons, ih]

theorem bucketsAdd_ne_nil (buckets : List (Nat × List Nat)) (c n : Nat) :
    bucketsAdd buckets c n ≠ [] := by
  cases buckets with
  | nil => simp [bucketsAdd]
  | cons b bs =>
      unfold bucketsAdd
      split <;> simp

theorem bucketsFold_eq_nil_iff (entries : List (Nat × Nat)) (acc : List (Nat × List Nat)) :
    entries.foldl (fun acc e => bucketsAdd acc e.2 e.1) acc = [] ↔
      acc = [] ∧ entries = [] := by
  induction entries generalizing acc with
  | nil => simp
  | cons e es ih =>
      rw [List.foldl_cons, ih]
      simp [bucketsAdd_ne_nil]

theorem gen_stages_eq_nil_iff (s : List (Nat × Nat)) (o : List Nat) :
    generate_pipeline_stages s o = [] ↔ scheduleEntries s o = [] := by
  unfold generate_pipeline_stages
  rw [← List.length_eq_zero, (sortByKey_perm _ _).length_eq, List.length_map,
    List.length_eq_zero, bucketsFold_eq_nil_iff]
  simp

theorem emit_congr (g1 g2 : Graph) (name : String)
    (hn : g1.nodes = g2.nodes)
    (hc : g1.pipeline_config = g2.pipeline_config)
    (hs : g1.pipeline_stages.isEmpty = g2.pipeline_stages.isEmpty) :
    generate_verilog_module g1 name = generate_verilog_module g2 name := by
  unfold generate_verilog_module generate_clean_pipelined_module
    generate_simple_module generate_module_header analyze_computation_pattern headerPorts
  rw [hn, hc, hs]

theorem schedWithResult_enable (o : List Nat) (g : Graph)
    (he : g.pipeline_config.enable = true) :
    schedWithResult o g =
      { insert_pipeline_registers g (fullSchedule g) with
          pipeline_stages := generate_pipeline_stages (fullSchedule g) o } := by
  unfold schedWithResult schedule_pipeline_with fullSchedule
  simp [he]

theorem schedWithResult_disable (o : List Nat) (g : Graph)
    (he : g.pipeline_config.enable = false) :
    schedWithResult o g = g := by
  unfold schedWithResult schedule_pipeline_with
  simp [he]

theorem scan_mul_count (nodes : List Node) (acc : ScanAcc) :
    (nodes.foldl scanStep acc).mul_count
      = acc.mul_count
        + nodes.countP (fun n => match n.op with | .mul _ _ => true | _ => false) := by
  induction nodes generalizing acc with
  | nil => simp
  | cons n ns ih =>
      rw [List.foldl_cons, ih, List.countP_cons]
      cases h : n.op <;> simp [scanStep, h] <;> omega

theorem scan_add_count (nodes : List Node) (acc : ScanAcc) :
    (nodes.foldl scanStep acc).add_count
      = acc.add_count
        + nodes.countP (fun n => match n.op with | .add _ _ => true | _ => false) := by
  induction nodes generalizing acc with
  | nil => simp
  | cons n ns ih =>
      rw [List.foldl_cons, ih, List.countP_cons]
      cases h : n.op <;> simp [scanStep, h] <;> omega

theorem inv_new : BuilderInv Graph.new := by
  refine ⟨rfl, rfl, ?_, ?_, rfl⟩ <;> simp [Graph.new]

theorem inv_new_value {g : Graph} (h : BuilderInv g) : BuilderInv g.new_value.2 := by
  obtain ⟨h1, h2, h3, h4, h5⟩ := h
  exact ⟨h1, h2, fun v hv => Nat.lt_succ_of_lt (h3 v hv), h4, h5⟩

theorem vmap_key_fresh {g : Graph} (h : BuilderInv g) :
    ∀ p ∈ g.value_map, p.1 ≠ g.next_value := by
  intro p hp
  rw [h.vmap_eq] at hp
  obtain ⟨n, hn, hf⟩ := List.mem_filterMap.mp hp
  cases hout : n.output with
  | none => rw [hout] at hf; simp at hf
  | some v =>
      rw [hout] at hf
      simp only [Option.map_some'] at hf
      have hv : v ∈ g.nodes.filterMap (fun n => n.output) :=
        List.mem_filterMap.mpr ⟨n, hn, hout⟩
      have hlt := h.out_bound v hv
      obtain rfl : (v, n.id) = p := Option.some.inj hf
      exact Nat.ne_of_lt hlt

theorem inv_add_with_output {g : Graph} (op : Operation) (h : BuilderInv g) :
    BuilderInv (g.add_node_with_output op).2 := by
  have hfresh := vmap_key_fresh h
  obtain ⟨h1, h2, h3, h4, h5⟩ := h
  have hshape : (g.add_node_with_output op).2 =
      { nodes := g.nodes ++ [{ id := g.next_node, op := op, output := some g.next_value }],
        next_value := g.next_value + 1, next_node := g.next_node + 1,
        value_map := aupdate g.value_map g.next_value g.next_node,
        pipeline_config := g.pipeline_config,
        pipeline_stages := g.pipeline_stages } := rfl
  rw [hshape]
  constructor
  · simp only [List.map_append, List.length_append, h1, h2, List.map_cons, List.map_nil,
      List.length_cons, List.length_nil]
    rw [List.range_succ]
  · simp [h2]
  · intro v hv
    rw [List.filterMap_append] at hv
    rcases List.mem_append.mp hv with hv1 | hv2
    · exact Nat.lt_succ_of_lt (h3 v hv1)
    · simp at hv2
      subst hv2
      exact Nat.lt_succ_self _
  · rw [List.filterMap_append]
    rw [List.nodup_append]
    refine ⟨h4, by simp, ?_⟩
    intro v hv1 hv2
    simp at hv2
    subst hv2
    exact absurd (h3 _ hv1) (Nat.lt_irrefl _)
  · rw [aupdate_append_of_fresh _ _ _ hfresh, h5, List.filterMap_append]
    simp

theorem inv_add_node {g : Graph} (op : Operation) (h : BuilderInv g) :
    BuilderInv (g.add_node op).2 := by
  obtain ⟨h1, h2, h3, h4, h5⟩ := h
  constructor
  · simp only [Graph.add_node, List.map_append, List.length_append, h1, h2, List.map_cons,
      List.map_nil, List.length_cons, List.length_nil]
    rw [List.range_succ]
  · simp [Graph.add_node, h2]
  · intro v hv
    simp only [Graph.add_node, List.filterMap_append] at hv
    rcases List.mem_append.mp hv with hv1 | hv2
    · exact h3 v hv1
    · simp at hv2
  · simp only [Graph.add_node, List.filterMap_append]
    simpa using h4
  · simp only [Graph.add_node, List.filterMap_append, h5]
    simp

theorem inv_insert_reg {g : Graph} (v : Nat) (h : BuilderInv g) :
    BuilderInv (g.insert_pipeline_register v).2 := by
  have hfresh := vmap_key_fresh h
  obtain ⟨h1, h2, h3, h4, h5⟩ := h
  have hshape : (g.insert_pipeline_register v).2 =
      { nodes := g.nodes ++ [{ id := g.next_node, op := Operation.pipelineRegister v,
                               output := some g.next_value }],
        next_value := g.next_value + 1, next_node := g.next_node + 1,
        value_map := aupdate g.value_map g.next_value g.next_node,
        pipeline_config := g.pipeline_config,
        pipeline_stages := g.pipeline_stages } := rfl
  rw [hshape]
  constructor
  · simp only [List.map_append, List.length_append, h1, h2, List.map_cons, List.map_nil,
      List.length_cons, List.length_nil]
    rw [List.range_succ]
  · simp [h2]
  · intro w hw
    rw [List.filterMap_append] at hw
    rcases List.mem_append.mp hw with hw1 | hw2
    · exact Nat.lt_succ_of_lt (h3 w hw1)
    · simp at hw2
      subst hw2
      exact Nat.lt_succ_self _
  · rw [List.filterMap_append, List.nodup_append]
    refine ⟨h4, by simp, ?_⟩
    intro w hw1 hw2
    simp at hw2
    subst hw2
    exact absurd (h3 _ hw1) (Nat.lt_irrefl _)
  · rw [aupdate_append_of_fresh _ _ _ hfresh, h5, List.filterMap_append]
    simp

theorem inv_enable {g : Graph} (ii depth unroll : Nat) (h : BuilderInv g) :
    BuilderInv (g.enable_pipeline ii depth unroll) := by
  obtain ⟨h1, h2, h3, h4, h5⟩ := h
  exact ⟨h1, h2, h3, h4, h5⟩

theorem inv_apply {g : Graph} (c : ApiCall) (h : BuilderInv g) :
    BuilderInv (applyCall g c) := by
  cases c with
  | newValue => exact inv_new_value h
  | addNodeWithOutput op => exact inv_add_with_output op h
  | addNode op => exact inv_add_node op h
  | insertPipelineRegister v => exact inv_insert_reg v h
  | enablePipeline ii depth unroll => exact inv_enable ii depth unroll h

theorem inv_foldl (calls : List ApiCall) (g : Graph) (h : BuilderInv g) :
    BuilderInv (calls.foldl applyCall g) := by
  induction calls generalizing g with
  | nil => exact h
  | cons c cs ih => exact ih _ (inv_apply c h)

theorem next_value_applyCall (g : Graph) (c : ApiCall) :
    (applyCall g c).next_value = g.next_value + (mintedBy g c).length := by
  cases c <;> rfl

theorem next_value_le_foldl (cs : List ApiCall) (g : Graph) :
    g.next_value ≤ (cs.foldl applyCall g).next_value := by
  induction cs generalizing g with
  | nil => exact Nat.le_refl _
  | cons c cs ih =>
      rw [List.foldl_cons]
      refine Nat.le_trans ?_ (ih (applyCall g c))
      rw [next_value_applyCall]
      exact Nat.le_add_right _ _

theorem mem_mintedBy_lt (g : Graph) (c : ApiCall) (v : Nat)
    (h : v ∈ mintedBy g c) : v < (applyCall g c).next_value := by
  cases c <;> simp [mintedBy] at h <;> subst h <;>
    simp [applyCall, Graph.new_value, Graph.add_node_with_output,
      Graph.insert_pipeline_register]

theorem minted_lt_next (cs : List ApiCall) (g : Graph) (v : Nat)
    (h : v ∈ mintedValues cs g) : v < (cs.foldl applyCall g).next_value := by
  induction cs generalizing g with
  | nil => simp [mintedValues] at h
  | cons c cs ih =>
      rw [List.foldl_cons]
      simp only [mintedValues] at h
      rcases List.mem_append.mp h with h1 | h2
      · exact Nat.lt_of_lt_of_le (mem_mintedBy_lt g c v h1)
          (next_value_le_foldl cs (applyCall g c))
      · exact ih (applyCall g c) h2

theorem outputOf_eq_next (g : Graph) (c : ApiCall) (v : Nat)
    (h : outputOf g c = some v) : v = g.next_value := by
  cases c <;> simp [outputOf, Graph.add_node_with_output, Graph.new_value,
    Graph.insert_pipeline_register] at h <;> omega

theorem mintedValues_eq_range' (cs : List ApiCall) (g : Graph) :
    mintedValues cs g
      = List.range' g.next_value ((cs.foldl applyCall g).next_value - g.next_value) := by
  induction cs generalizing g with
  | nil => simp [mintedValues]
  | cons c cs ih =>
      rw [List.foldl_cons]
      simp only [mintedValues]
      rw [ih (applyCall g c), next_value_applyCall g c]
      have hle : g.next_value + (mintedBy g c).length
          ≤ (cs.foldl applyCall (applyCall g c)).next_value := by
        rw [← next_value_applyCall g c]
        exact next_value_le_foldl cs (applyCall g c)
      cases c <;> simp only [mintedBy, List.length_cons, List.length_nil] <;>
        simp only [mintedBy, List.length_cons, List.length_nil] at hle
      case newValue =>
        have hk : (cs.foldl applyCall (applyCall g ApiCall.newValue)).next_value
              - g.next_value
            = ((cs.foldl applyCall (applyCall g ApiCall.newValue)).next_value
              - (g.next_value + 1)) + 1 := by omega
        rw [hk, List.range'_succ]
        rfl
      case addNodeWithOutput op =>
        have hk : (cs.foldl applyCall
                (applyCall g (ApiCall.addNodeWithOutput op))).next_value
              - g.next_value
            = ((cs.foldl applyCall
                (applyCall g (ApiCall.addNodeWithOutput op))).next_value
              - (g.next_value + 1)) + 1 := by omega
        rw [hk, List.range'_succ]
        rfl
      case insertPipelineRegister w =>
        have hk : (cs.foldl applyCall
                (applyCall g (ApiCall.insertPipelineRegister w))).next_value
              - g.next_value
            = ((cs.foldl applyCall
                (applyCall g (ApiCall.insertPipelineRegister w))).next_value
              - (g.next_value + 1)) + 1 := by omega
        rw [hk, List.range'_succ]
        rfl
      case addNode op => simp
      case enablePipeline ii depth unroll => simp

/-! ## Claim theorems -/

/-- Claim C1 (code_bug evidence).  The claim states that a successful
pipelined schedule satisfies `cycle(n) ≥ cycle(m) + latency(m)` for every
operand edge `m → n`.  On `exCG1` (`Load "x"`; `Const 5`; `Add(v0, v1)`)
the dependency list of the `Add` node (node 2) is `[0, 1]`, the final
schedule places both the `Add` and the `Load` at cycle 0, and the `Load`
has latency 2 — so the consumer starts strictly before its producer
finishes, refuting the invariant. -/
theorem c1_final_schedule_breaks_dependency :
    alookup (build_dependency_graph exCG1) 2 = some [0, 1] ∧
    alookup (fullSchedule exCG1) 2 = some 0 ∧
    alookup (fullSchedule exCG1) 0 = some 0 ∧
    exCG1.nodes.map (fun n => get_operation_latency n.op) = [2, 0, 1] ∧
    ¬ (0 + 2 ≤ 0) := by decide

/-- Claim C2 (code_bug evidence).  The claim states that the ASAP cycle
of a node with producers is the maximum over its producers of
`cycle + latency`.  On `exCG1` the `Add` node's producers are the `Load`
(cycle 0, latency 2) and the `Const` (cycle 0, latency 0), so the claim
requires `max (0+2) (0+0) = 2`; the code assigns cycle 0 — the finish
cycle of the *last producer processed* in the work-list traversal, not
the maximum. -/
theorem c2_asap_takes_last_not_max :
    alookup (calculate_asap_schedule exCG1 (build_dependency_graph exCG1)) 2 = some 0 ∧
    alookup (calculate_asap_schedule exCG1 (build_dependency_graph exCG1)) 0 = some 0 ∧
    alookup (calculate_asap_schedule exCG1 (build_dependency_graph exCG1)) 1 = some 0 ∧
    get_operation_latency (Operation.load "x") = 2 ∧
    (0 : Nat) ≠ max (0 + 2) (0 + 0) := by decide

/-- Claim C3 counterexample.  The claim says register chains are inserted
only for producer-to-consumer *operand edges*.  In `exCG3` the value `v1`
(output of `Load "b"`, cycle 0) has exactly one operand-edge consumer two
or more cycles later (`Mul` at cycle 2), so under the claim exactly one
`PipelineRegister` would consume `v1` directly; the pass inserts two
(one chain per *any* node scheduled ≥ 2 cycles later, including the
`Store` at cycle 5, which does not consume `v1`). -/
theorem c3_counterexample_chain_without_operand_edge :
    specChainHeadCount exCG3 (fullSchedule exCG3) 1 = 1 ∧
    directRegCount (insert_pipeline_registers exCG3 (fullSchedule exCG3)) 1 = 2 ∧
    directRegCount (insert_pipeline_registers exCG3 (fullSchedule exCG3)) 1
      ≠ specChainHeadCount exCG3 (fullSchedule exCG3) 1 := by decide

/-- Claim C3 as amended.  The pass appends, for every ordered pair
`(p, q)` where `p` has an output value and `q` is *any* node scheduled at
least two cycles after `p` (consumer or not), a chain of
`cycle(q) − cycle(p) − 1` registers; so the node count grows by exactly
the sum of those gaps and every appended node is a `PipelineRegister`. -/
theorem c3_amended_register_insertion_by_cycle_gap (g : Graph) (s : List (Nat × Nat)) :
    (insert_pipeline_registers g s).nodes.length
      = g.nodes.length + registerGapSum g s ∧
    ((insert_pipeline_registers g s).nodes.drop g.nodes.length).all
      (fun n => isPipelineReg n.op) = true := by
  obtain ⟨l, hn, hl, hr⟩ := regsFold_shape (registers_to_insert g s) g
  unfold insert_pipeline_registers
  refine ⟨?_, ?_⟩
  · rw [hn, List.length_append, hl, gapSum_eq g s]
  · rw [hn, List.drop_left]
    exact hr

/-- Claim C4 counterexample.  On `exCG4` (two constants feeding five
independent `Div` nodes, all with a single-cycle `[ASAP, ALAP]` window at
cycle 0) the final assignment puts five divider-class nodes at cycle 0,
exceeding the divider budget of 4. -/
theorem c4_counterexample_divider_budget_exceeded :
    classCountAt exCG4 (fullSchedule exCG4) "divider" 0 = 5 ∧
    budgetOf "divider" = 4 ∧
    ¬ (classCountAt exCG4 (fullSchedule exCG4) "divider" 0 ≤ budgetOf "divider") := by
  decide

/-- Claim C4 as amended.  Placements made by reservation never exceed the
budgets (adder 100, multiplier 12, divider 4, memory 8, any class absent
from the table — including `logic` — defaults to 1): every entry of the
scheduler's resource-usage table is at most the class budget.  Nodes
whose whole window is saturated are placed at ASAP without reservation
and are not counted, which is how the total can exceed the budget. -/
theorem c4_amended_reserved_usage_within_budget (g : Graph) (c : Nat) (r : String) :
    (alookup (fullUsage g) (c, r)).getD 0 ≤ budgetOf r := by
  have hinit : UsageBounded ([] : Usage) := by
    intro c r
    simp [alookup, List.find?]
  exact usageBounded_fold _ _ _ _ hinit c r

/-- Claim C5 counterexample.  On `exCG5` (`Load x`; `Load y`;
`Mul(v0, v1)`) the scheduled graph has five nodes (two appended
`PipelineRegister`s, ids 3 and 4), yet the stage list only covers nodes
0, 1, 2; and the stage indices are `[0, 2]` — equal to the raw cycles —
so they are neither contiguous from 0 nor dense. -/
theorem c5_counterexample_stages_not_dense_missing_registers :
    (schedResult exCG5).pipeline_stages.map (fun s => s.stage) = [0, 2] ∧
    (schedResult exCG5).pipeline_stages.map (fun s => s.cycle) = [0, 2] ∧
    (schedResult exCG5).nodes.map (fun n => n.id) = [0, 1, 2, 3, 4] ∧
    (schedResult exCG5).nodes.map (fun n => isPipelineReg n.op)
      = [false, false, false, true, true] ∧
    (schedResult exCG5).pipeline_stages.flatMap (fun s => s.operations) = [0, 1, 2] := by
  decide

/-- Claim C5 as amended.  For any final schedule map and any duplicate-free
iteration order: the produced stage list is sorted by stage, each stage's
index equals its raw cycle (hence indices are not re-densified), and the
stages partition exactly the scheduled node ids (each appears in exactly
one stage) — `PipelineRegister` nodes inserted by the pass are absent
from the schedule map and therefore from every stage. -/
theorem c5_amended_stage_structure (s : List (Nat × Nat)) (o : List Nat)
    (h : o.Nodup) :
    (generate_pipeline_stages s o).Pairwise (fun a b => a.stage ≤ b.stage) ∧
    (∀ st ∈ generate_pipeline_stages s o, st.stage = st.cycle) ∧
    ((generate_pipeline_stages s o).flatMap (fun st => st.operations)).Perm
      ((scheduleEntries s o).map (fun e => e.1)) ∧
    ((generate_pipeline_stages s o).flatMap (fun st => st.operations)).Nodup := by
  have hperm : ((generate_pipeline_stages s o).flatMap (fun st => st.operations)).Perm
      ((scheduleEntries s o).map (fun e => e.1)) := by
    have h1 := (stagePairs_gen s o).map (fun p => p.1)
    rwa [stagePairs_fst] at h1
  refine ⟨gen_stages_sorted s o, gen_stages_stage_eq_cycle s o, hperm, ?_⟩
  have hn : ((scheduleEntries s o).map (fun e => e.1)).Nodup := by
    rw [scheduleEntries_fst]
    exact h.filter _
  exact hperm.symm.nodup hn

/-- Witness for `c5_amended_stage_structure` at the schedule of `exCG5`
and the insertion iteration order. -/
theorem c5_amended_stage_structure_witness :
    (generate_pipeline_stages (fullSchedule exCG5) [0, 1, 2]).Pairwise
      (fun a b => a.stage ≤ b.stage) ∧
    (∀ st ∈ generate_pipeline_stages (fullSchedule exCG5) [0, 1, 2],
      st.stage = st.cycle) ∧
    ((generate_pipeline_stages (fullSchedule exCG5) [0, 1, 2]).flatMap
      (fun st => st.operations)).Perm
      ((scheduleEntries (fullSchedule exCG5) [0, 1, 2]).map (fun e => e.1)) ∧
    ((generate_pipeline_stages (fullSchedule exCG5) [0, 1, 2]).flatMap
      (fun st => st.operations)).Nodup :=
  c5_amended_stage_structure (fullSchedule exCG5) [0, 1, 2] (by decide)

/-- Claim C6 counterexample.  `[0, 1]` and `[1, 0]` are both enumerations
of the same schedule map of `exCG6` (two constants, both at cycle 0), yet
the two stage lists differ (the single stage's operation list is
`[0, 1]` in one run and `[1, 0]` in the other), so two runs over
identical graphs need not produce equal stage lists. -/
theorem c6_counterexample_stage_operation_order :
    ([0, 1] : List Nat).Perm [1, 0] ∧
    stagesWith [0, 1] exCG6 ≠ stagesWith [1, 0] exCG6 := by decide

/-- Claim C6 as amended.  Across two runs whose `HashMap` iteration
orders are permutations of each other, the scheduled graph's node list
and pipeline configuration are identical, the stage lists carry the same
multiset of `(node, cycle)` assignments, and the emitted RTL strings are
byte-identical (the emitter never reads the stage contents) — only the
order of operations inside a stage may differ. -/
theorem c6_amended_determinism_up_to_stage_operation_order
    (g : Graph) (name : String) (o1 o2 : List Nat) (h : o1.Perm o2) :
    (schedWithResult o1 g).nodes = (schedWithResult o2 g).nodes ∧
    (schedWithResult o1 g).pipeline_config = (schedWithResult o2 g).pipeline_config ∧
    (stagePairs (stagesWith o1 g)).Perm (stagePairs (stagesWith o2 g)) ∧
    generate_verilog_module (schedWithResult o1 g) name
      = generate_verilog_module (schedWithResult o2 g) name := by
  by_cases he : g.pipeline_config.enable
  · rw [stagesWith, stagesWith, schedWithResult_enable o1 g he,
      schedWithResult_enable o2 g he]
    have hentries := List.Perm.filterMap
      (fun node_id => (alookup (fullSchedule g) node_id).map (fun c => (node_id, c))) h
    have hpairs : (stagePairs (generate_pipeline_stages (fullSchedule g) o1)).Perm
        (stagePairs (generate_pipeline_stages (fullSchedule g) o2)) :=
      ((stagePairs_gen _ o1).trans hentries).trans (stagePairs_gen _ o2).symm
    have hnil : (generate_pipeline_stages (fullSchedule g) o1 = [])
        ↔ (generate_pipeline_stages (fullSchedule g) o2 = []) := by
      rw [gen_stages_eq_nil_iff, gen_stages_eq_nil_iff, ← List.length_eq_zero,
        ← List.length_eq_zero]
      unfold scheduleEntries
      rw [hentries.length_eq]
    refine ⟨rfl, rfl, hpairs, ?_⟩
    refine emit_congr _ _ name rfl rfl ?_
    rw [Bool.eq_iff_iff]
    simpa [List.isEmpty_iff] using hnil
  · have he' : g.pipeline_config.enable = false := by simpa using he
    rw [stagesWith, stagesWith, schedWithResult_disable o1 g he',
      schedWithResult_disable o2 g he']
    exact ⟨rfl, rfl, List.Perm.refl _, rfl⟩

/-- Witness for `c6_amended_determinism_up_to_stage_operation_order` on
`exCG6` with the two iteration orders of the counterexample. -/
theorem c6_amended_determinism_witness :
    (schedWithResult [0, 1] exCG6).nodes = (schedWithResult [1, 0] exCG6).nodes ∧
    (schedWithResult [0, 1] exCG6).pipeline_config
      = (schedWithResult [1, 0] exCG6).pipeline_config ∧
    (stagePairs (stagesWith [0, 1] exCG6)).Perm (stagePairs (stagesWith [1, 0] exCG6)) ∧
    generate_verilog_module (schedWithResult [0, 1] exCG6) "m"
      = generate_verilog_module (schedWithResult [1, 0] exCG6) "m" :=
  c6_amended_determinism_up_to_stage_operation_order exCG6 "m" [0, 1] [1, 0] (by decide)

/-- Claim C7 counterexample.  On `exCG4` the fifth divider's whole
`[ASAP, ALAP]` window (cycle 0 only) is saturated — the usage table
already holds the full divider budget — yet `schedule_pipeline` returns
`Ok` and the node is placed at cycle 0 anyway: the scheduler neither
extends the horizon (which would keep the per-cycle count within budget)
nor reports `ResourceInfeasible`. -/
theorem c7_counterexample_saturation_no_error_no_extension :
    isOkE (schedule_pipeline exCG4) = true ∧
    alookup (fullSchedule exCG4) 6 = some 0 ∧
    (alookup (fullUsage exCG4) (0, "divider")).getD 0 = budgetOf "divider" ∧
    classCountAt exCG4 (fullSchedule exCG4) "divider" 0 = 5 := by decide

/-- Claim C7 as amended.  `schedule_pipeline` never fails: for every
graph and every stage-map iteration order it returns `Ok`; a node whose
window is saturated is silently placed at its ASAP cycle. -/
theorem c7_amended_schedule_pipeline_never_fails (order : List Nat) (g : Graph) :
    isOkE (schedule_pipeline_with order g) = true := by
  unfold schedule_pipeline_with
  split <;> rfl

/-- Claim C8 (code_bug evidence).  The claim states the emitter is total.
`exCG8` (two `Mul` and two `Add` nodes over constants, no `Load`)
satisfies every data-model invariant, is classified as the MAC pattern
with an empty collected-input list, and reaches the pipelined code path —
where `generate_mac_pipeline` slices `&analysis.inputs[4..]` and indexes
`inputs[0..=3]`, a panic (modelled as `none`). -/
theorem c8_emitter_panics_on_mac_without_inputs :
    (analyze_computation_pattern (schedResult exCG8)).pattern = ComputationPattern.MAC ∧
    (analyze_computation_pattern (schedResult exCG8)).inputs = [] ∧
    (schedResult exCG8).pipeline_config.enable = true ∧
    (schedResult exCG8).pipeline_stages.isEmpty = false ∧
    generate_verilog_module (schedResult exCG8) "mac_mod" = none :=
  ⟨rfl, rfl, rfl, rfl, rfl⟩

/-- Claim C9 (confirmed).  Pattern analysis classifies a graph as MAC iff
it has at least two `Mul` and at least two `Add` nodes, as
SimpleArithmetic iff it is not MAC and has at most one `Mul` and at most
two `Add` nodes, Complex otherwise; the logical stage count is 5 for
MAC, 3 for SimpleArithmetic (and 4 for Complex). -/
theorem c9_pattern_classification (g : Graph) :
    ((analyze_computation_pattern g).pattern = ComputationPattern.MAC
      ↔ 2 ≤ mulCountOf g ∧ 2 ≤ addCountOf g) ∧
    ((analyze_computation_pattern g).pattern = ComputationPattern.SimpleArithmetic
      ↔ ¬(2 ≤ mulCountOf g ∧ 2 ≤ addCountOf g)
          ∧ mulCountOf g ≤ 1 ∧ addCountOf g ≤ 2) ∧
    (analyze_computation_pattern g).logical_stages
      = (match (analyze_computation_pattern g).pattern with
         | ComputationPattern.MAC => 5
         | ComputationPattern.SimpleArithmetic => 3
         | ComputationPattern.Complex => 4) := by
  have hm := scan_mul_count g.nodes
    { mul_count := 0, add_count := 0, inputs := [], outputs := [] }
  have ha := scan_add_count g.nodes
    { mul_count := 0, add_count := 0, inputs := [], outputs := [] }
  unfold analyze_computation_pattern
  simp only [hm, ha, Nat.zero_add]
  by_cases h1 : 2 ≤ mulCountOf g ∧ 2 ≤ addCountOf g
  · simp [mulCountOf, addCountOf] at h1
    simp [h1, mulCountOf, addCountOf]
  · by_cases h2 : mulCountOf g ≤ 1 ∧ addCountOf g ≤ 2
    · simp only [mulCountOf, addCountOf] at h1 h2
      simp [h1, h2, mulCountOf, addCountOf]
    · simp only [mulCountOf, addCountOf] at h1 h2
      simp [h1, h2, mulCountOf, addCountOf]

/-- Claim C10 (confirmed).  For every sequence of public API calls, the
i-th node of the built graph has node id i; the produced values are
pairwise distinct and below the `next_value` watermark; the
value-to-producer map holds exactly the produced values, each mapped to
its producing node's id; the output a node-creating call receives is
distinct from every value minted earlier in the sequence (including
values minted by bare `new_value` calls); and the values minted by the
whole sequence are exactly `0 .. next_value - 1`. -/
theorem c10_builder_invariants (calls : List ApiCall) :
    ((buildGraph calls).nodes.map (fun n => n.id)
        = List.range (buildGraph calls).nodes.length) ∧
    ((buildGraph calls).nodes.filterMap (fun n => n.output)).Nodup ∧
    (((buildGraph calls).nodes.filterMap (fun n => n.output)).all
        (fun v => decide (v < (buildGraph calls).next_value)) = true) ∧
    (buildGraph calls).value_map
      = (buildGraph calls).nodes.filterMap (fun n => n.output.map (fun v => (v, n.id))) ∧
    (∀ (pre : List ApiCall) (c : ApiCall) (v : Nat),
        outputOf (buildGraph pre) c = some v → v ∉ mintedValues pre Graph.new) ∧
    mintedValues calls Graph.new = List.range (buildGraph calls).next_value := by
  have h := inv_foldl calls Graph.new inv_new
  refine ⟨h.ids, h.out_nodup, ?_, h.vmap_eq, ?_, ?_⟩
  · rw [List.all_eq_true]
    intro v hv
    simpa using h.out_bound v hv
  · intro pre c v hv hmem
    have h1 := outputOf_eq_next _ _ _ hv
    have h2 := minted_lt_next pre Graph.new v hmem
    simp only [buildGraph] at h1
    omega
  · rw [mintedValues_eq_range' calls Graph.new, List.range_eq_range']
    rfl

/-- Witness for `c10_builder_invariants` at `exCalls10`: the first
node-creating call after a bare `new_value` call receives output value 1,
which is not among the values minted before it (the bare call minted
value 0), and the minted values of the whole sequence are exactly
`0 .. 3`. -/
theorem c10_builder_invariants_witness :
    outputOf (buildGraph [ApiCall.newValue])
        (ApiCall.addNodeWithOutput (Operation.load "x")) = some 1 ∧
    (1 : Nat) ∉ mintedValues [ApiCall.newValue] Graph.new ∧
    mintedValues exCalls10 Graph.new = List.range (buildGraph exCalls10).next_value :=
  ⟨rfl,
   (c10_builder_invariants exCalls10).2.2.2.2.1 [ApiCall.newValue]
     (ApiCall.addNodeWithOutput (Operation.load "x")) 1 rfl,
   (c10_builder_invariants exCalls10).2.2.2.2.2⟩

end RustHLS
